import Mathlib

/-!
Shallow embedding of the chat server in src/backend/index.js.

JS Map objects are modelled as insertion-ordered association lists
(lookup finds the first matching key; set replaces in place; delete
removes the entry).  JS strings are modelled as Lean strings: every
input of interest is ASCII, where the JS length / trim / toLowerCase
agree with the structural jsLength / jsTrim / jsToLower defined below.
Date.now() values are passed to each handler explicitly as a Nat
timestamp.  The socket.io adapter rooms (socket.join / socket.leave /
io.to / socket.to) are modelled as one more association list from room
name to the list of sockets currently in that io room; broadcasts are
resolved to the concrete recipient sockets at emission time, exactly as
the adapter does.
-/

namespace Chat

/-- The JS String.prototype.trim: drop whitespace from both ends.
Implemented structurally over the character list so that the kernel can
evaluate it (the core String.trim is defined by well-founded recursion
over byte positions and does not reduce definitionally). -/
def jsTrim (s : String) : String :=
  ⟨((s.data.dropWhile Char.isWhitespace).reverse.dropWhile Char.isWhitespace).reverse⟩

/-- The JS String.prototype.toLowerCase on the ASCII fragment, again
structural over the character list. -/
def jsToLower (s : String) : String :=
  ⟨s.data.map Char.toLower⟩

/-- The JS length of a string (code units; identical to the character
count on the ASCII fragment). -/
def jsLength (s : String) : Nat := s.data.length

/-- The JS falsy test for a string: only the empty string is falsy. -/
def jsIsEmpty (s : String) : Bool := s.data.isEmpty

/-- One entry of the per-room user array in the rooms Map:
`{username, socketId, joinedAt}` as pushed by addUserToRoom. -/
structure Member where
  username : String
  socketId : String
  joinedAt : Nat
deriving DecidableEq

/-- One entry of the userSockets Map: `{room, username}` as stored by
addUserToRoom; the SessionBinding of the spec. -/
structure Binding where
  room : String
  username : String
deriving DecidableEq

/-- First-match lookup in an association list (JS Map.get). -/
def alookup {α : Type} (k : String) : List (String × α) → Option α
  | [] => none
  | (k1, v) :: rest => if k1 = k then some v else alookup k rest

/-- In-place update or append (JS Map.set keeps insertion order). -/
def aset {α : Type} (k : String) (v : α) : List (String × α) → List (String × α)
  | [] => [(k, v)]
  | (k1, v1) :: rest => if k1 = k then (k, v) :: rest else (k1, v1) :: aset k v rest

/-- Remove the entry for a key (JS Map.delete). -/
def adel {α : Type} (k : String) : List (String × α) → List (String × α)
  | [] => []
  | (k1, v1) :: rest => if k1 = k then rest else (k1, v1) :: adel k rest

/-- The keys of an association list. -/
def keys {α : Type} (m : List (String × α)) : List String := m.map Prod.fst

/-- The whole server state: the three JS Maps of index.js plus the
socket.io adapter rooms. -/
structure ServerState where
  rooms : List (String × List Member)
  userSockets : List (String × Binding)
  messageLimiter : List (String × List Nat)
  ioRooms : List (String × List String)
deriving DecidableEq

/-- The state at server start: all maps empty. -/
def initState : ServerState := ⟨[], [], [], []⟩

def MAX_USERNAME_LENGTH : Nat := 20
def MIN_USERNAME_LENGTH : Nat := 2
def MAX_ROOM_LENGTH : Nat := 20
def MIN_ROOM_LENGTH : Nat := 2
def MAX_MESSAGE_LENGTH : Nat := 500
def MESSAGE_RATE_LIMIT : Nat := 10
def RATE_LIMIT_WINDOW : Nat := 5000

/-- validateUsername of index.js: non-empty string whose trimmed length
lies in [2, 20].  (The JS falsy check on the empty string is subsumed
by the lower length bound but kept for faithfulness.) -/
def validateUsername (username : String) : Bool :=
  if jsIsEmpty username then false
  else decide (MIN_USERNAME_LENGTH ≤ (jsTrim username).data.length) &&
       decide ((jsTrim username).data.length ≤ MAX_USERNAME_LENGTH)

/-- validateRoom of index.js: trimmed length in [2, 20]. -/
def validateRoom (room : String) : Bool :=
  if jsIsEmpty room then false
  else decide (MIN_ROOM_LENGTH ≤ (jsTrim room).data.length) &&
       decide ((jsTrim room).data.length ≤ MAX_ROOM_LENGTH)

/-- validateMessage of index.js: trimmed length positive and raw length
at most 500. -/
def validateMessage (message : String) : Bool :=
  if jsIsEmpty message then false
  else decide (0 < (jsTrim message).data.length) &&
       decide (jsLength message ≤ MAX_MESSAGE_LENGTH)

/-- checkRateLimit of index.js.  Returns the boolean result together
with the updated messageLimiter map: on reject the map is left exactly
as it was (the pruned list is not written back); on admit the pruned
list with `now` appended is stored. -/
def checkRateLimit (socketId : String) (now : Nat)
    (ml : List (String × List Nat)) : Bool × List (String × List Nat) :=
  let userLimit := (alookup socketId ml).getD []
  let recentMessages := userLimit.filter (fun t => decide (now - t < RATE_LIMIT_WINDOW))
  if MESSAGE_RATE_LIMIT ≤ recentMessages.length then (false, ml)
  else (true, aset socketId (recentMessages ++ [now]) ml)

/-- getRoomUsers of index.js: the user array of a room, empty if the
room is absent. -/
def getRoomUsers (rooms : List (String × List Member)) (room : String) : List Member :=
  (alookup room rooms).getD []

/-- userExistsInRoom of index.js: note that it lowercases the RAW
requested username and compares it with the stored (trimmed) ones. -/
def userExistsInRoom (rooms : List (String × List Member))
    (room username : String) : Bool :=
  (getRoomUsers rooms room).any (fun u => jsToLower u.username == jsToLower username)

/-- addUserToRoom of index.js.  The rooms Map is keyed by the RAW room
string, while the stored binding holds the TRIMMED room and username. -/
def addUserToRoom (room username socketId : String) (now : Nat)
    (rooms : List (String × List Member)) (userSockets : List (String × Binding)) :
    List (String × List Member) × List (String × Binding) :=
  let rooms1 := if (alookup room rooms).isNone then aset room [] rooms else rooms
  let users := (alookup room rooms1).getD []
  let users1 := if users.any (fun u => u.socketId == socketId) then users
                else users ++ [⟨jsTrim username, socketId, now⟩]
  (aset room users1 rooms1, aset socketId ⟨jsTrim room, jsTrim username⟩ userSockets)

/-- removeUserFromRoom of index.js: looks the binding up, filters the
member out of the room stored under the BINDING room name, deletes the
room if it became empty, and deletes the binding and the rate state.
Returns the freed identity. -/
def removeUserFromRoom (socketId : String) (s : ServerState) :
    ServerState × Option Binding :=
  match alookup socketId s.userSockets with
  | none => (s, none)
  | some b =>
    let rooms :=
      match alookup b.room s.rooms with
      | none => s.rooms
      | some users =>
        let users1 := users.filter (fun u => u.socketId != socketId)
        if users1.isEmpty then adel b.room s.rooms else aset b.room users1 s.rooms
    ({ s with rooms := rooms,
              userSockets := adel socketId s.userSockets,
              messageLimiter := adel socketId s.messageLimiter }, some b)

/-- The sockets currently in a socket.io room. -/
def ioMembers (room : String) (m : List (String × List String)) : List String :=
  (alookup room m).getD []

/-- socket.join(room): add the socket to the adapter room. -/
def ioJoin (socketId room : String) (m : List (String × List String)) :
    List (String × List String) :=
  match alookup room m with
  | none => aset room [socketId] m
  | some l => if socketId ∈ l then m else aset room (l ++ [socketId]) m

/-- socket.leave(room): remove the socket; the adapter drops rooms that
became empty. -/
def ioLeave (socketId room : String) (m : List (String × List String)) :
    List (String × List String) :=
  match alookup room m with
  | none => m
  | some l =>
    let l1 := l.filter (fun t => t != socketId)
    if l1.isEmpty then adel room m else aset room l1 m

/-- On transport disconnect the adapter removes the socket from every
room before the disconnect handler runs. -/
def ioLeaveAll (socketId : String) (m : List (String × List String)) :
    List (String × List String) :=
  (m.map (fun p => (p.1, p.2.filter (fun t => t != socketId)))).filter
    (fun p => !p.2.isEmpty)

/-- The events the server emits.  receive_message payloads are split by
their type tag into systemMessage and userMessage; room_users and
user_list_update carry the list of the username fields of their member
objects. -/
inductive ServerEvent where
  | roomUsersEvt (usernames : List String)
  | userListUpdate (usernames : List String)
  | systemMessage (message : String) (timestamp : Nat)
  | userMessage (room author message : String) (timestamp : Nat) (id : String)
  | userTyping (username : String) (isTyping : Bool)
  | errorEvt (message : String)
deriving DecidableEq

/-- A resolved emission: recipient socket paired with the event. -/
abbrev Emission : Type := String × ServerEvent

/-- The join_room handler of index.js. -/
def joinRoomStep (s : ServerState) (socketId room username : String) (now : Nat) :
    ServerState × List Emission :=
  if validateUsername username = false then
    (s, [(socketId, ServerEvent.errorEvt "Invalid username. Use 2-20 characters.")])
  else if validateRoom room = false then
    (s, [(socketId, ServerEvent.errorEvt "Invalid room ID. Use 2-20 characters.")])
  else if userExistsInRoom s.rooms room username then
    (s, [(socketId, ServerEvent.errorEvt "Username already taken in this room.")])
  else
    let ioRooms1 := ioJoin socketId room s.ioRooms
    let p := addUserToRoom room username socketId now s.rooms s.userSockets
    let roomUsers := getRoomUsers p.1 room
    let names := roomUsers.map Member.username
    let members := ioMembers room ioRooms1
    ({ s with rooms := p.1, userSockets := p.2, ioRooms := ioRooms1 },
     (socketId, ServerEvent.roomUsersEvt names) ::
       (members.map (fun t => (t, ServerEvent.userListUpdate names)) ++
        (members.filter (fun t => t != socketId)).map
          (fun t => (t, ServerEvent.systemMessage (username ++ " joined the room") now))))

/-- The send_message handler of index.js. -/
def sendMessageStep (s : ServerState) (socketId room author message : String)
    (now : Nat) : ServerState × List Emission :=
  let rl := checkRateLimit socketId now s.messageLimiter
  if rl.1 = false then
    (s, [(socketId, ServerEvent.errorEvt "Too many messages. Please slow down.")])
  else
    let s1 := { s with messageLimiter := rl.2 }
    if validateRoom room = false then
      (s1, [(socketId, ServerEvent.errorEvt "Invalid room")])
    else if validateUsername author = false then
      (s1, [(socketId, ServerEvent.errorEvt "Invalid username")])
    else if validateMessage message = false then
      (s1, [(socketId, ServerEvent.errorEvt "Invalid message")])
    else
      match alookup socketId s1.userSockets with
      | none => (s1, [(socketId, ServerEvent.errorEvt "Unauthorized message")])
      | some b =>
        if b.room != room || b.username != author then
          (s1, [(socketId, ServerEvent.errorEvt "Unauthorized message")])
        else
          (s1, (ioMembers room s1.ioRooms).map
            (fun t => (t, ServerEvent.userMessage room author (jsTrim message) now
              (socketId ++ "-" ++ toString now))))

/-- The typing handler of index.js: note that only the ROOM of the
binding is compared with the payload, never the username. -/
def typingStep (s : ServerState) (socketId room username : String)
    (isTyping : Bool) : ServerState × List Emission :=
  if validateRoom room = false || validateUsername username = false then (s, [])
  else
    match alookup socketId s.userSockets with
    | none => (s, [])
    | some b =>
      if b.room != room then (s, [])
      else
        (s, ((ioMembers room s.ioRooms).filter (fun t => t != socketId)).map
          (fun t => (t, ServerEvent.userTyping username isTyping)))

/-- The leave_room handler of index.js: socket.leave on the BINDING
room, then removeUserFromRoom, then both broadcasts through io.to on
the binding room (the leaver is already out of the io room). -/
def leaveRoomStep (s : ServerState) (socketId : String) (now : Nat) :
    ServerState × List Emission :=
  match alookup socketId s.userSockets with
  | none => (s, [])
  | some b =>
    let s0 := { s with ioRooms := ioLeave socketId b.room s.ioRooms }
    let s1 := (removeUserFromRoom socketId s0).1
    let recips := ioMembers b.room s1.ioRooms
    let names := (getRoomUsers s1.rooms b.room).map Member.username
    (s1, recips.map (fun t => (t, ServerEvent.systemMessage
           (b.username ++ " left the room") now)) ++
         recips.map (fun t => (t, ServerEvent.userListUpdate names)))

/-- The disconnect handler of index.js: the adapter has already removed
the socket from all io rooms; user_list_update is only broadcast when
the remaining member list is non-empty. -/
def disconnectStep (s : ServerState) (socketId : String) (now : Nat) :
    ServerState × List Emission :=
  let s0 := { s with ioRooms := ioLeaveAll socketId s.ioRooms }
  let r := removeUserFromRoom socketId s0
  match r.2 with
  | none => (r.1, [])
  | some b =>
    let recips := ioMembers b.room r.1.ioRooms
    let roomUsers := getRoomUsers r.1.rooms b.room
    (r.1, recips.map (fun t => (t, ServerEvent.systemMessage
            (b.username ++ " left the room") now)) ++
          (if roomUsers.isEmpty then []
           else recips.map (fun t => (t, ServerEvent.userListUpdate
             (roomUsers.map Member.username)))))

/-- The client events of the protocol. -/
inductive Event where
  | joinRoom (socketId room username : String)
  | sendMessage (socketId room author message : String)
  | typing (socketId room username : String) (isTyping : Bool)
  | leaveRoom (socketId : String)
  | disconnect (socketId : String)

/-- Dispatch one client event at one instant. -/
def step (s : ServerState) (e : Event) (now : Nat) : ServerState × List Emission :=
  match e with
  | .joinRoom sid room username => joinRoomStep s sid room username now
  | .sendMessage sid room author message => sendMessageStep s sid room author message now
  | .typing sid room username isTyping => typingStep s sid room username isTyping
  | .leaveRoom sid => leaveRoomStep s sid now
  | .disconnect sid => disconnectStep s sid now

/-- The GET /api/rooms projection of index.js: room, userCount, users. -/
def listRooms (s : ServerState) : List (String × Nat × List String) :=
  s.rooms.map (fun p => (p.1, p.2.length, p.2.map Member.username))

/-- Run checkRateLimit over a list of attempt times, threading the
limiter map; returns the list of verdicts and the final map. -/
def runChecks (socketId : String) : List Nat → List (String × List Nat) →
    List Bool × List (String × List Nat)
  | [], ml => ([], ml)
  | t :: ts, ml =>
    let r := checkRateLimit socketId t ml
    let rest := runChecks socketId ts r.2
    (r.1 :: rest.1, rest.2)


/-- The socket is recorded as a member of room r with username u. -/
def MemberOf (rooms : List (String × List Member)) (r sid u : String) : Prop :=
  ∃ m ∈ (alookup r rooms).getD ([] : List Member), m.socketId = sid ∧ m.username = u

/-- The SessionBinding correspondence of the spec: a binding exists for
a socket exactly when that socket is a member of exactly the room named
in the binding, under the same username. -/
def bindingInv (rooms : List (String × List Member))
    (userSockets : List (String × Binding)) : Prop :=
  ∀ sid : String,
    (∀ b : Binding, alookup sid userSockets = some b →
        MemberOf rooms b.room sid b.username ∧
        ∀ r : String, ∀ m ∈ (alookup r rooms).getD ([] : List Member),
          m.socketId = sid → r = b.room ∧ m.username = b.username) ∧
    (alookup sid userSockets = none →
        ∀ r : String, ∀ m ∈ (alookup r rooms).getD ([] : List Member),
          m.socketId ≠ sid)

/-- Well-formedness carried through the reachability induction: the two
registry maps have duplicate-free keys and satisfy the binding
correspondence. -/
def Wf (s : ServerState) : Prop :=
  (keys s.rooms).Nodup ∧ (keys s.userSockets).Nodup ∧
    bindingInv s.rooms s.userSockets

/-- The restriction the amended claim C1 places on traces: every
join_room event names a room equal to its trimmed form and comes from a
connection that holds no binding.  All other events are unrestricted. -/
def GoodEvent (s : ServerState) : Event → Prop
  | .joinRoom sid room _ => jsTrim room = room ∧ alookup sid s.userSockets = none
  | _ => True

/-- States reachable from the initial state by sequences of events that
satisfy GoodEvent. -/
inductive ReachOK : ServerState → Prop where
  | init : ReachOK initState
  | step (s : ServerState) (e : Event) (now : Nat) :
      ReachOK s → GoodEvent s e → ReachOK (step s e now).1

theorem alookup_aset_self {α : Type} (k : String) (v : α) (m : List (String × α)) :
    alookup k (aset k v m) = some v := by
  induction m with
  | nil => simp [aset, alookup]
  | cons p rest ih =>
    obtain ⟨k1, v1⟩ := p
    by_cases h : k1 = k
    · simp [aset, h, alookup]
    · simp [aset, h, alookup, ih]

theorem alookup_aset_ne {α : Type} {k q : String} (v : α) (m : List (String × α))
    (h : q ≠ k) : alookup q (aset k v m) = alookup q m := by
  induction m with
  | nil =>
    simp only [aset, alookup, if_neg (fun hh : k = q => h hh.symm)]
  | cons p rest ih =>
    obtain ⟨k1, v1⟩ := p
    by_cases h1 : k1 = k
    · subst h1
      simp only [aset, if_pos rfl, alookup,
        if_neg (fun hh : k1 = q => h hh.symm)]
    · simp only [aset, if_neg h1, alookup]
      by_cases h2 : k1 = q
      · simp only [if_pos h2]
      · simp only [if_neg h2, ih]

theorem alookup_adel_ne {α : Type} {k q : String} (m : List (String × α))
    (h : q ≠ k) : alookup q (adel k m) = alookup q m := by
  induction m with
  | nil => simp [adel]
  | cons p rest ih =>
    obtain ⟨k1, v1⟩ := p
    by_cases h1 : k1 = k
    · subst h1
      simp only [adel, if_pos rfl, if_true, alookup,
        if_neg (fun hh : k1 = q => h hh.symm)]
    · simp only [adel, if_neg h1, alookup]
      by_cases h2 : k1 = q
      · simp only [if_pos h2]
      · simp only [if_neg h2, ih]

theorem mem_keys_aset {α : Type} (k q : String) (v : α) (m : List (String × α)) :
    q ∈ keys (aset k v m) ↔ q = k ∨ q ∈ keys m := by
  induction m with
  | nil => simp [aset, keys]
  | cons p rest ih =>
    obtain ⟨k1, v1⟩ := p
    by_cases h : k1 = k
    · subst h
      simp only [aset, if_pos rfl, if_true, keys, List.map_cons, List.mem_cons]
      tauto
    · simp only [aset, if_neg h, keys, List.map_cons, List.mem_cons] at ih ⊢
      tauto

theorem nodup_keys_aset {α : Type} (k : String) (v : α) (m : List (String × α))
    (h : (keys m).Nodup) : (keys (aset k v m)).Nodup := by
  induction m with
  | nil => simp [aset, keys]
  | cons p rest ih =>
    obtain ⟨k1, v1⟩ := p
    simp only [keys, List.map_cons, List.nodup_cons] at h
    by_cases h1 : k1 = k
    · subst h1
      simpa [aset, keys, List.nodup_cons] using h
    · simp only [aset, if_neg h1, keys, List.map_cons, List.nodup_cons]
      refine ⟨fun hmem => ?_, ih h.2⟩
      rcases (mem_keys_aset k k1 v rest).1 hmem with h2 | h2
      · exact h1 h2
      · exact h.1 h2

theorem keys_adel_sublist {α : Type} (k : String) (m : List (String × α)) :
    List.Sublist (keys (adel k m)) (keys m) := by
  induction m with
  | nil => simp [adel]
  | cons p rest ih =>
    obtain ⟨k1, v1⟩ := p
    by_cases h : k1 = k
    · simp only [adel, if_pos h, keys, List.map_cons]
      exact (List.sublist_cons_self _ _)
    · simp only [adel, if_neg h, keys, List.map_cons]
      exact List.Sublist.cons₂ _ ih

theorem nodup_keys_adel {α : Type} (k : String) (m : List (String × α))
    (h : (keys m).Nodup) : (keys (adel k m)).Nodup :=
  h.sublist (keys_adel_sublist k m)

theorem alookup_eq_none_iff {α : Type} (k : String) (m : List (String × α)) :
    alookup k m = none ↔ k ∉ keys m := by
  induction m with
  | nil => simp [alookup, keys]
  | cons p rest ih =>
    obtain ⟨k1, v1⟩ := p
    by_cases h : k1 = k
    · subst h
      simp [alookup, keys]
    · simp only [alookup, if_neg h, keys, List.map_cons, List.mem_cons, ih]
      have hne : ¬k = k1 := fun hh => h hh.symm
      tauto

theorem alookup_adel_self {α : Type} (k : String) (m : List (String × α))
    (h : (keys m).Nodup) : alookup k (adel k m) = none := by
  induction m with
  | nil => simp [adel, alookup]
  | cons p rest ih =>
    obtain ⟨k1, v1⟩ := p
    simp only [keys, List.map_cons, List.nodup_cons] at h
    by_cases h1 : k1 = k
    · subst h1
      simp only [adel, if_pos rfl]
      exact (alookup_eq_none_iff k1 rest).2 h.1
    · simp only [adel, if_neg h1, alookup, if_neg h1]
      exact ih h.2

theorem removeUser_none (socketId : String) (s : ServerState)
    (hb : alookup socketId s.userSockets = none) :
    removeUserFromRoom socketId s = (s, none) := by
  unfold removeUserFromRoom
  rw [hb]

theorem removeUser_proj (socketId : String) (s : ServerState) (b : Binding)
    (hb : alookup socketId s.userSockets = some b) :
    (removeUserFromRoom socketId s).1.userSockets = adel socketId s.userSockets ∧
    (removeUserFromRoom socketId s).1.messageLimiter = adel socketId s.messageLimiter ∧
    (removeUserFromRoom socketId s).1.ioRooms = s.ioRooms ∧
    (removeUserFromRoom socketId s).2 = some b := by
  unfold removeUserFromRoom
  rw [hb]
  exact ⟨rfl, rfl, rfl, rfl⟩

theorem removeUser_rooms_lookup (socketId : String) (s : ServerState) (b : Binding)
    (hb : alookup socketId s.userSockets = some b) (hnd : (keys s.rooms).Nodup)
    (users : List Member) (hr : alookup b.room s.rooms = some users) :
    ∀ r : String, (alookup r (removeUserFromRoom socketId s).1.rooms).getD ([] : List Member) =
      if r = b.room then users.filter (fun u => u.socketId != socketId)
      else (alookup r s.rooms).getD ([] : List Member) := by
  intro r
  unfold removeUserFromRoom
  rw [hb]
  simp only [hr]
  split
  · next hemp =>
    by_cases hre : r = b.room
    · subst hre
      rw [alookup_adel_self _ _ hnd, if_pos rfl]
      exact (List.isEmpty_iff.mp hemp).symm
    · rw [alookup_adel_ne _ hre, if_neg hre]
  · by_cases hre : r = b.room
    · subst hre
      rw [alookup_aset_self, if_pos rfl]
      rfl
    · rw [alookup_aset_ne _ _ hre, if_neg hre]

theorem removeUser_wf (socketId : String) (s : ServerState) (hwf : Wf s) :
    Wf (removeUserFromRoom socketId s).1 := by
  obtain ⟨hndr, hndu, hinv⟩ := hwf
  cases hb : alookup socketId s.userSockets with
  | none =>
    rw [removeUser_none socketId s hb]
    exact ⟨hndr, hndu, hinv⟩
  | some b =>
    obtain ⟨⟨m0, hm0mem, hm0sid, hm0u⟩, honly⟩ := (hinv socketId).1 b hb
    cases hr : alookup b.room s.rooms with
    | none =>
      rw [hr] at hm0mem
      simp at hm0mem
    | some users =>
      have hlook := removeUser_rooms_lookup socketId s b hb hndr users hr
      have hproj := removeUser_proj socketId s b hb
      have hndr2 : (keys (removeUserFromRoom socketId s).1.rooms).Nodup := by
        unfold removeUserFromRoom
        rw [hb]
        simp only [hr]
        split
        · exact nodup_keys_adel _ _ hndr
        · exact nodup_keys_aset _ _ _ hndr
      refine ⟨hndr2, hproj.1 ▸ nodup_keys_adel _ _ hndu, ?_⟩
      intro sid1
      constructor
      · intro b1 hb1
        rw [hproj.1] at hb1
        by_cases hs1 : sid1 = socketId
        · subst hs1
          rw [alookup_adel_self _ _ hndu] at hb1
          cases hb1
        · rw [alookup_adel_ne _ hs1] at hb1
          obtain ⟨⟨m1, hm1mem, hm1sid, hm1u⟩, honly1⟩ := (hinv sid1).1 b1 hb1
          constructor
          · unfold MemberOf
            rw [hlook b1.room]
            by_cases hbr : b1.room = b.room
            · rw [if_pos hbr]
              refine ⟨m1, ?_, hm1sid, hm1u⟩
              rw [hbr, hr] at hm1mem
              simp only [Option.getD_some] at hm1mem
              refine List.mem_filter.mpr ⟨hm1mem, ?_⟩
              rw [hm1sid]
              exact bne_iff_ne.mpr hs1
            · rw [if_neg hbr]
              exact ⟨m1, hm1mem, hm1sid, hm1u⟩
          · intro r m hm hmsid
            rw [hlook r] at hm
            by_cases hre : r = b.room
            · rw [if_pos hre] at hm
              have hmu : m ∈ users := (List.mem_filter.mp hm).1
              have hmold : m ∈ (alookup b.room s.rooms).getD ([] : List Member) := by
                rw [hr]; exact hmu
              obtain ⟨h1, h2⟩ := honly1 b.room m hmold hmsid
              exact ⟨hre.trans h1, h2⟩
            · rw [if_neg hre] at hm
              exact honly1 r m hm hmsid
      · intro hnone1
        rw [hproj.1] at hnone1
        by_cases hs1 : sid1 = socketId
        · subst hs1
          intro r m hm
          rw [hlook r] at hm
          by_cases hre : r = b.room
          · rw [if_pos hre] at hm
            exact bne_iff_ne.mp (List.mem_filter.mp hm).2
          · rw [if_neg hre] at hm
            intro hmsid
            exact hre ((honly r m hm hmsid).1)
        · rw [alookup_adel_ne _ hs1] at hnone1
          have hnm1 := (hinv sid1).2 hnone1
          intro r m hm
          rw [hlook r] at hm
          by_cases hre : r = b.room
          · rw [if_pos hre] at hm
            have hmu : m ∈ users := (List.mem_filter.mp hm).1
            have hmold : m ∈ (alookup b.room s.rooms).getD ([] : List Member) := by
              rw [hr]; exact hmu
            exact hnm1 b.room m hmold
          · rw [if_neg hre] at hm
            exact hnm1 r m hm

theorem addUser_us (room username socketId : String) (now : Nat)
    (rooms : List (String × List Member)) (us : List (String × Binding)) :
    (addUserToRoom room username socketId now rooms us).2 =
      aset socketId ⟨jsTrim room, jsTrim username⟩ us := rfl

theorem addUser_keys_nodup (room username socketId : String) (now : Nat)
    (rooms : List (String × List Member)) (us : List (String × Binding))
    (h : (keys rooms).Nodup) :
    (keys (addUserToRoom room username socketId now rooms us).1).Nodup := by
  unfold addUserToRoom
  apply nodup_keys_aset
  split
  · exact nodup_keys_aset _ _ _ h
  · exact h

theorem addUser_rooms_lookup (room username socketId : String) (now : Nat)
    (rooms : List (String × List Member)) (us : List (String × Binding))
    (hnm : ∀ m ∈ (alookup room rooms).getD ([] : List Member), m.socketId ≠ socketId) :
    ∀ r : String,
      (alookup r (addUserToRoom room username socketId now rooms us).1).getD
          ([] : List Member) =
      if r = room then
        ((alookup room rooms).getD ([] : List Member)) ++
          [⟨jsTrim username, socketId, now⟩]
      else (alookup r rooms).getD ([] : List Member) := by
  intro r
  have hany : ((alookup room rooms).getD ([] : List Member)).any
      (fun u => u.socketId == socketId) = false := by
    rw [List.any_eq_false]
    intro m hm
    simp only [beq_iff_eq]
    exact hnm m hm
  unfold addUserToRoom
  cases halo : alookup room rooms with
  | none =>
    rw [halo] at hany
    simp only [Option.getD_none] at hany
    simp only [halo, Option.isNone_none, ite_true, alookup_aset_self, Option.getD_some,
      hany, Bool.false_eq_true, ite_false, List.nil_append, Option.getD_none]
    by_cases hre : r = room
    · subst hre
      rw [alookup_aset_self, if_pos rfl]
      rfl
    · rw [alookup_aset_ne _ _ hre, alookup_aset_ne _ _ hre, if_neg hre]
  | some users =>
    rw [halo] at hany
    simp only [Option.getD_some] at hany
    simp only [halo, Option.isNone_some, ite_false, Option.getD_some, hany,
      Bool.false_eq_true]
    by_cases hre : r = room
    · subst hre
      rw [alookup_aset_self, if_pos rfl]
      rfl
    · rw [alookup_aset_ne _ _ hre, if_neg hre]

theorem joinStep_wf (s : ServerState) (socketId room username : String) (now : Nat)
    (hwf : Wf s) (htrim : jsTrim room = room)
    (hun : alookup socketId s.userSockets = none) :
    Wf (joinRoomStep s socketId room username now).1 := by
  obtain ⟨hndr, hndu, hinv⟩ := hwf
  have hnm : ∀ r : String, ∀ m ∈ (alookup r s.rooms).getD ([] : List Member),
      m.socketId ≠ socketId := (hinv socketId).2 hun
  unfold joinRoomStep
  by_cases hvu : validateUsername username = false
  · rw [if_pos hvu]
    exact ⟨hndr, hndu, hinv⟩
  · rw [if_neg hvu]
    by_cases hvr : validateRoom room = false
    · rw [if_pos hvr]
      exact ⟨hndr, hndu, hinv⟩
    · rw [if_neg hvr]
      by_cases hex : userExistsInRoom s.rooms room username
      · rw [if_pos hex]
        exact ⟨hndr, hndu, hinv⟩
      · rw [if_neg hex]
        have hlook := addUser_rooms_lookup room username socketId now s.rooms
          s.userSockets (hnm room)
        refine ⟨?_, ?_, ?_⟩
        · show (keys (addUserToRoom room username socketId now s.rooms
            s.userSockets).1).Nodup
          exact addUser_keys_nodup room username socketId now s.rooms s.userSockets hndr
        · show (keys (addUserToRoom room username socketId now s.rooms
            s.userSockets).2).Nodup
          rw [addUser_us]
          exact nodup_keys_aset _ _ _ hndu
        · show bindingInv (addUserToRoom room username socketId now s.rooms
            s.userSockets).1 (addUserToRoom room username socketId now s.rooms
            s.userSockets).2
          rw [addUser_us, htrim]
          intro sid1
          constructor
          · intro b1 hb1
            by_cases hs1 : sid1 = socketId
            · subst hs1
              rw [alookup_aset_self] at hb1
              injection hb1 with hb1
              subst hb1
              constructor
              · unfold MemberOf
                rw [hlook room, if_pos rfl]
                exact ⟨⟨jsTrim username, sid1, now⟩,
                  List.mem_append.mpr (Or.inr (List.mem_singleton.mpr rfl)), rfl, rfl⟩
              · intro r m hm hmsid
                rw [hlook r] at hm
                by_cases hre : r = room
                · subst hre
                  rw [if_pos rfl] at hm
                  rcases List.mem_append.mp hm with hmo | hmn
                  · exact absurd hmsid (hnm r m hmo)
                  · cases List.mem_singleton.mp hmn
                    exact ⟨rfl, rfl⟩
                · rw [if_neg hre] at hm
                  exact absurd hmsid (hnm r m hm)
            · rw [alookup_aset_ne _ _ hs1] at hb1
              obtain ⟨⟨m1, hm1mem, hm1sid, hm1u⟩, honly1⟩ := (hinv sid1).1 b1 hb1
              constructor
              · unfold MemberOf
                rw [hlook b1.room]
                by_cases hbr : b1.room = room
                · rw [if_pos hbr]
                  exact ⟨m1, List.mem_append.mpr (Or.inl (hbr ▸ hm1mem)), hm1sid, hm1u⟩
                · rw [if_neg hbr]
                  exact ⟨m1, hm1mem, hm1sid, hm1u⟩
              · intro r m hm hmsid
                rw [hlook r] at hm
                by_cases hre : r = room
                · subst hre
                  rw [if_pos rfl] at hm
                  rcases List.mem_append.mp hm with hmo | hmn
                  · exact honly1 r m hmo hmsid
                  · cases List.mem_singleton.mp hmn
                    exact absurd hmsid.symm hs1
                · rw [if_neg hre] at hm
                  exact honly1 r m hm hmsid
          · intro hnone1
            by_cases hs1 : sid1 = socketId
            · subst hs1
              rw [alookup_aset_self] at hnone1
              cases hnone1
            · rw [alookup_aset_ne _ _ hs1] at hnone1
              have hn1 := (hinv sid1).2 hnone1
              intro r m hm
              rw [hlook r] at hm
              by_cases hre : r = room
              · subst hre
                rw [if_pos rfl] at hm
                rcases List.mem_append.mp hm with hmo | hmn
                · exact hn1 r m hmo
                · cases List.mem_singleton.mp hmn
                  exact fun h => hs1 h.symm
              · rw [if_neg hre] at hm
                exact hn1 r m hm

theorem sendMessage_frame (s : ServerState) (socketId room author message : String)
    (now : Nat) :
    (sendMessageStep s socketId room author message now).1.rooms = s.rooms ∧
    (sendMessageStep s socketId room author message now).1.userSockets = s.userSockets ∧
    (sendMessageStep s socketId room author message now).1.ioRooms = s.ioRooms := by
  simp only [sendMessageStep]
  repeat' split
  all_goals exact ⟨rfl, rfl, rfl⟩

theorem typing_state (s : ServerState) (socketId room username : String)
    (isTyping : Bool) :
    (typingStep s socketId room username isTyping).1 = s := by
  simp only [typingStep]
  repeat' split
  all_goals rfl

theorem leave_wf (s : ServerState) (socketId : String) (now : Nat) (hwf : Wf s) :
    Wf (leaveRoomStep s socketId now).1 := by
  unfold leaveRoomStep
  cases hb : alookup socketId s.userSockets with
  | none => exact hwf
  | some b =>
    exact removeUser_wf socketId
      { s with ioRooms := ioLeave socketId b.room s.ioRooms }
      ⟨hwf.1, hwf.2.1, hwf.2.2⟩

theorem disconnect_state (s : ServerState) (socketId : String) (now : Nat) :
    (disconnectStep s socketId now).1 =
      (removeUserFromRoom socketId
        { s with ioRooms := ioLeaveAll socketId s.ioRooms }).1 := by
  simp only [disconnectStep]
  cases hr : (removeUserFromRoom socketId
      { s with ioRooms := ioLeaveAll socketId s.ioRooms }).2 with
  | none => rfl
  | some b => rfl

theorem disconnect_wf (s : ServerState) (socketId : String) (now : Nat) (hwf : Wf s) :
    Wf (disconnectStep s socketId now).1 := by
  rw [disconnect_state]
  exact removeUser_wf socketId
    { s with ioRooms := ioLeaveAll socketId s.ioRooms }
    ⟨hwf.1, hwf.2.1, hwf.2.2⟩

theorem step_wf (s : ServerState) (e : Event) (now : Nat) (hwf : Wf s)
    (hg : GoodEvent s e) : Wf (step s e now).1 := by
  cases e with
  | joinRoom sid room username =>
    exact joinStep_wf s sid room username now hwf hg.1 hg.2
  | sendMessage sid room author message =>
    show Wf (sendMessageStep s sid room author message now).1
    have hf := sendMessage_frame s sid room author message now
    refine ⟨?_, ?_, ?_⟩
    · rw [hf.1]; exact hwf.1
    · rw [hf.2.1]; exact hwf.2.1
    · rw [hf.1, hf.2.1]; exact hwf.2.2
  | typing sid room username isTyping =>
    show Wf (typingStep s sid room username isTyping).1
    rw [typing_state]
    exact hwf
  | leaveRoom sid =>
    exact leave_wf s sid now hwf
  | disconnect sid =>
    exact disconnect_wf s sid now hwf

theorem wf_init : Wf initState := by
  refine ⟨List.nodup_nil, List.nodup_nil, ?_⟩
  intro sid
  constructor
  · intro b hb
    cases hb
  · intro _ r m hm
    cases hm

theorem reachOK_wf (s : ServerState) (h : ReachOK s) : Wf s := by
  induction h with
  | init => exact wf_init
  | step s e now hr hg ih => exact step_wf s e now ih hg

/-- Claim C1 is false as stated: after a single valid join_room naming
the room " ab" (valid: its trimmed length is 2), the connection holds
the SessionBinding ("ab", "alice") yet is not a member of any room named
"ab" (that room does not even exist; the member sits under the raw key
" ab").  And after a second join_room from a connection that is already
bound, the binding names only the new room while the connection is still
recorded as a member of the old room as well. -/
theorem c1_cex_binding_mismatch :
    (alookup "c1" (joinRoomStep initState "c1" " ab" "alice" 0).1.userSockets =
        some ⟨"ab", "alice"⟩ ∧
      alookup "ab" (joinRoomStep initState "c1" " ab" "alice" 0).1.rooms = none) ∧
    (alookup "c1" (joinRoomStep (joinRoomStep initState "c1" "ab" "alice" 0).1
          "c1" "cd" "bob" 1).1.userSockets = some ⟨"cd", "bob"⟩ ∧
      ∃ m ∈ (alookup "ab" (joinRoomStep (joinRoomStep initState "c1" "ab" "alice" 0).1
          "c1" "cd" "bob" 1).1.rooms).getD ([] : List Member),
        m.socketId = "c1") := by
  decide

/-- Claim C1 (amended): restricted to event sequences in which every
join_room event names a room equal to its own trimmed form and comes
from a connection holding no SessionBinding, every reachable state
satisfies the correspondence: a SessionBinding for a connection exists
iff that connection appears as a Member of exactly the room named in the
binding, with the same username — and hence every operation preserves
the correspondence. -/
theorem c1_binding_invariant_restricted (s : ServerState) (h : ReachOK s) :
    bindingInv s.rooms s.userSockets :=
  (reachOK_wf s h).2.2

/-- Witness for the amended claim C1, at the state reached by one valid
join_room on the initial state. -/
theorem c1_binding_invariant_witness :
    bindingInv (step initState (Event.joinRoom "c1" "ab" "alice") 0).1.rooms
      (step initState (Event.joinRoom "c1" "ab" "alice") 0).1.userSockets :=
  c1_binding_invariant_restricted _
    (ReachOK.step initState (Event.joinRoom "c1" "ab" "alice") 0 ReachOK.init
      ⟨by decide, rfl⟩)

/-- Claim C2 is violated by the code: the duplicate check lowercases the
RAW requested username while the stored usernames are trimmed, so after
"alice" joins room "ab", a second connection may join the same room as
" alice" (trimmed length 5, valid); the check compares " alice" with
"alice", finds no match, and stores a second member whose recorded
username is again "alice".  The room then holds two members with
identical usernames, violating pairwise case-insensitive distinctness. -/
theorem c2_duplicate_username_eval :
    (((alookup "ab" (joinRoomStep (joinRoomStep initState "c1" "ab" "alice" 0).1
          "c2" "ab" " alice" 1).1.rooms).getD ([] : List Member)).map
        Member.username = ["alice", "alice"]) ∧
    ¬ (((alookup "ab" (joinRoomStep (joinRoomStep initState "c1" "ab" "alice" 0).1
          "c2" "ab" " alice" 1).1.rooms).getD ([] : List Member)).map
        (fun m => jsToLower m.username)).Nodup := by
  decide

/-- Claim C9 is violated by the code: a connection that never joined any
room sends one send_message (here with the invalid room "x"), which
passes the rate gate and records the timestamp; on its disconnect,
removeUserFromRoom finds no binding and returns without deleting the
rate-limiter entry, so the state [0] outlives the connection. -/
theorem c9_rate_state_leak_eval :
    alookup "c1" (disconnectStep
        (sendMessageStep initState "c1" "x" "alice" "hi" 0).1 "c1" 1).1.messageLimiter =
      some [0] := by
  decide

/-- Claim C5: per connection, checkRateLimit drops entries older than
the 5000 ms window, rejects without recording when 10 or more remain,
admits and appends the current instant otherwise; consequently the 11th
message inside one window is rejected while an attempt made after the
window has passed is admitted again (also evaluated on the concrete
11-call and 12-call traces). -/
theorem c5_rate_limiter (socketId : String) (now : Nat)
    (ml : List (String × List Nat)) :
    ((checkRateLimit socketId now ml).1 = false ↔
      MESSAGE_RATE_LIMIT ≤ (((alookup socketId ml).getD ([] : List Nat)).filter
        (fun t => decide (now - t < RATE_LIMIT_WINDOW))).length) ∧
    ((checkRateLimit socketId now ml).1 = false →
      (checkRateLimit socketId now ml).2 = ml) ∧
    ((checkRateLimit socketId now ml).1 = true →
      alookup socketId (checkRateLimit socketId now ml).2 =
        some ((((alookup socketId ml).getD ([] : List Nat)).filter
          (fun t => decide (now - t < RATE_LIMIT_WINDOW))) ++ [now])) ∧
    ((∀ t ∈ (alookup socketId ml).getD ([] : List Nat), now - t < RATE_LIMIT_WINDOW) →
      ((alookup socketId ml).getD ([] : List Nat)).length = MESSAGE_RATE_LIMIT →
      (checkRateLimit socketId now ml).1 = false) ∧
    ((∀ t ∈ (alookup socketId ml).getD ([] : List Nat), RATE_LIMIT_WINDOW ≤ now - t) →
      (checkRateLimit socketId now ml).1 = true) ∧
    (runChecks "c1" [0, 1, 2, 3, 4, 5, 6, 7, 8, 9, 10] []).1 =
      [true, true, true, true, true, true, true, true, true, true, false] ∧
    (runChecks "c1" [0, 1, 2, 3, 4, 5, 6, 7, 8, 9, 10, 6000] []).1 =
      [true, true, true, true, true, true, true, true, true, true, false, true] := by
  have key : ((checkRateLimit socketId now ml).1 = false ↔
      MESSAGE_RATE_LIMIT ≤ (((alookup socketId ml).getD ([] : List Nat)).filter
        (fun t => decide (now - t < RATE_LIMIT_WINDOW))).length) ∧
      ((checkRateLimit socketId now ml).1 = false →
        (checkRateLimit socketId now ml).2 = ml) ∧
      ((checkRateLimit socketId now ml).1 = true →
        alookup socketId (checkRateLimit socketId now ml).2 =
          some ((((alookup socketId ml).getD ([] : List Nat)).filter
            (fun t => decide (now - t < RATE_LIMIT_WINDOW))) ++ [now])) := by
    simp only [checkRateLimit]
    by_cases h : MESSAGE_RATE_LIMIT ≤ (((alookup socketId ml).getD ([] : List Nat)).filter
        (fun t => decide (now - t < RATE_LIMIT_WINDOW))).length
    · rw [if_pos h]
      exact ⟨by simp [h], fun _ => rfl, by simp⟩
    · rw [if_neg h]
      exact ⟨by simp [h], by simp, fun _ => alookup_aset_self _ _ _⟩
  refine ⟨key.1, key.2.1, key.2.2, ?_, ?_, by decide, by decide⟩
  · intro hwin hlen
    rw [key.1]
    have hfull : ((alookup socketId ml).getD ([] : List Nat)).filter
        (fun t => decide (now - t < RATE_LIMIT_WINDOW)) =
        (alookup socketId ml).getD ([] : List Nat) := by
      rw [List.filter_eq_self]
      intro t ht
      simp only [decide_eq_true_eq]
      exact hwin t ht
    rw [hfull, hlen]
  · intro hold
    have hnil : ((alookup socketId ml).getD ([] : List Nat)).filter
        (fun t => decide (now - t < RATE_LIMIT_WINDOW)) = [] := by
      rw [List.filter_eq_nil_iff]
      intro t ht
      simp only [decide_eq_true_eq]
      have := hold t ht
      omega
    rcases hb : (checkRateLimit socketId now ml).1 with _ | _
    · exfalso
      have := key.1.mp hb
      rw [hnil] at this
      simp [MESSAGE_RATE_LIMIT] at this
    · rfl

/-- Witness for claim C5: a connection with ten timestamps inside the
window is rejected on its next attempt. -/
theorem c5_rate_limiter_witness :
    (checkRateLimit "c1" 100 [("c1", [0, 1, 2, 3, 4, 5, 6, 7, 8, 9])]).1 = false :=
  (c5_rate_limiter "c1" 100 [("c1", [0, 1, 2, 3, 4, 5, 6, 7, 8, 9])]).2.2.2.1
    (by decide) (by decide)

/-- Claim C6: a join_room whose username or room fails validation
leaves the whole server state untouched and emits exactly one
InvalidInput-class error event, to the requesting connection only. -/
theorem c6_invalid_join_no_mutation (s : ServerState)
    (socketId room username : String) (now : Nat)
    (h : validateUsername username = false ∨ validateRoom room = false) :
    (joinRoomStep s socketId room username now).1 = s ∧
    ((joinRoomStep s socketId room username now).2 =
        [(socketId, ServerEvent.errorEvt "Invalid username. Use 2-20 characters.")] ∨
      (joinRoomStep s socketId room username now).2 =
        [(socketId, ServerEvent.errorEvt "Invalid room ID. Use 2-20 characters.")]) := by
  unfold joinRoomStep
  by_cases hvu : validateUsername username = false
  · rw [if_pos hvu]
    exact ⟨rfl, Or.inl rfl⟩
  · have hvr : validateRoom room = false := h.resolve_left hvu
    rw [if_neg hvu, if_pos hvr]
    exact ⟨rfl, Or.inr rfl⟩

/-- Witness for claim C6: joining with the one-character username "a"
changes nothing and produces the username error. -/
theorem c6_invalid_join_witness :
    (joinRoomStep initState "c1" "lobby" "a" 0).1 = initState ∧
    ((joinRoomStep initState "c1" "lobby" "a" 0).2 =
        [("c1", ServerEvent.errorEvt "Invalid username. Use 2-20 characters.")] ∨
      (joinRoomStep initState "c1" "lobby" "a" 0).2 =
        [("c1", ServerEvent.errorEvt "Invalid room ID. Use 2-20 characters.")]) :=
  c6_invalid_join_no_mutation initState "c1" "lobby" "a" 0 (Or.inl (by decide))

theorem sendMessage_reject (s : ServerState)
    (socketId room author message : String) (now : Nat)
    (hrl : (checkRateLimit socketId now s.messageLimiter).1 = true)
    (hrej : validateRoom room = false ∨ validateUsername author = false ∨
      validateMessage message = false ∨
      (∀ b : Binding, alookup socketId s.userSockets = some b →
        ¬(b.room = room ∧ b.username = author))) :
    ∃ msg : String, sendMessageStep s socketId room author message now =
      ({ s with messageLimiter := (checkRateLimit socketId now s.messageLimiter).2 },
       [(socketId, ServerEvent.errorEvt msg)]) := by
  have hne : ¬((checkRateLimit socketId now s.messageLimiter).1 = false) := by
    rw [hrl]
    simp
  simp only [sendMessageStep]
  rw [if_neg hne]
  by_cases hvr : validateRoom room = false
  · rw [if_pos hvr]
    exact ⟨"Invalid room", rfl⟩
  · rw [if_neg hvr]
    by_cases hvu : validateUsername author = false
    · rw [if_pos hvu]
      exact ⟨"Invalid username", rfl⟩
    · rw [if_neg hvu]
      by_cases hvm : validateMessage message = false
      · rw [if_pos hvm]
        exact ⟨"Invalid message", rfl⟩
      · rw [if_neg hvm]
        have hmis : ∀ b : Binding, alookup socketId s.userSockets = some b →
            ¬(b.room = room ∧ b.username = author) := by
          rcases hrej with h | h | h | h
          · exact absurd h hvr
          · exact absurd h hvu
          · exact absurd h hvm
          · exact h
        cases hb : alookup socketId s.userSockets with
        | none => exact ⟨"Unauthorized message", rfl⟩
        | some b =>
          have hcond : (b.room != room || b.username != author) = true := by
            have hn := hmis b hb
            by_cases hbr : b.room = room
            · have hbu : b.username ≠ author := fun hh => hn ⟨hbr, hh⟩
              simp [hbu]
            · simp [hbr]
          exact ⟨"Unauthorized message", by simp [hcond]⟩

/-- Claim C10: a send_message that passes the rate gate but is then
rejected (invalid room, author, or message shape, or a SessionBinding
mismatch including no binding at all) leaves the room map, the binding
map, and the io rooms unchanged and emits a single error to the sender,
yet the rate window of the sender still gains the attempt timestamp —
and the entry is created even for connections that never joined. -/
theorem c10_rejected_message_frame (s : ServerState)
    (socketId room author message : String) (now : Nat)
    (hrl : (checkRateLimit socketId now s.messageLimiter).1 = true)
    (hrej : validateRoom room = false ∨ validateUsername author = false ∨
      validateMessage message = false ∨
      (∀ b : Binding, alookup socketId s.userSockets = some b →
        ¬(b.room = room ∧ b.username = author))) :
    (sendMessageStep s socketId room author message now).1.rooms = s.rooms ∧
    (sendMessageStep s socketId room author message now).1.userSockets = s.userSockets ∧
    (sendMessageStep s socketId room author message now).1.ioRooms = s.ioRooms ∧
    alookup socketId (sendMessageStep s socketId room author message now).1.messageLimiter =
      some ((((alookup socketId s.messageLimiter).getD ([] : List Nat)).filter
        (fun t => decide (now - t < RATE_LIMIT_WINDOW))) ++ [now]) ∧
    (∃ msg : String, (sendMessageStep s socketId room author message now).2 =
      [(socketId, ServerEvent.errorEvt msg)]) := by
  obtain ⟨msg, heq⟩ := sendMessage_reject s socketId room author message now hrl hrej
  have hrl2 : (checkRateLimit socketId now s.messageLimiter).2 =
      aset socketId ((((alookup socketId s.messageLimiter).getD ([] : List Nat)).filter
        (fun t => decide (now - t < RATE_LIMIT_WINDOW))) ++ [now]) s.messageLimiter := by
    revert hrl
    simp only [checkRateLimit]
    split
    · intro h
      cases h
    · intro _
      rfl
  rw [heq]
  refine ⟨rfl, rfl, rfl, ?_, ⟨msg, rfl⟩⟩
  show alookup socketId (checkRateLimit socketId now s.messageLimiter).2 = _
  rw [hrl2]
  exact alookup_aset_self _ _ _

/-- Witness for claim C10: a fresh, never-bound connection sends an
invalid-room message; rooms and bindings stay empty, a single error goes
back, and a rate entry [7] appears for it. -/
theorem c10_rejected_message_witness :
    (sendMessageStep initState "c1" "x" "alice" "hi" 7).1.rooms = initState.rooms ∧
    (sendMessageStep initState "c1" "x" "alice" "hi" 7).1.userSockets = initState.userSockets ∧
    (sendMessageStep initState "c1" "x" "alice" "hi" 7).1.ioRooms = initState.ioRooms ∧
    alookup "c1" (sendMessageStep initState "c1" "x" "alice" "hi" 7).1.messageLimiter =
      some ((((alookup "c1" initState.messageLimiter).getD ([] : List Nat)).filter
        (fun t => decide (7 - t < RATE_LIMIT_WINDOW))) ++ [7]) ∧
    (∃ msg : String, (sendMessageStep initState "c1" "x" "alice" "hi" 7).2 =
      [("c1", ServerEvent.errorEvt msg)]) :=
  c10_rejected_message_frame initState "c1" "x" "alice" "hi" 7 (by decide)
    (Or.inl (by decide))

/-- Claim C4 is false as stated: a send_message whose payload passes
shape validation and mismatches the binding (author "bobby" instead of
the bound "alice") is answered with the rate-limit error, not an
Unauthorized-class error, when the sender already has ten timestamps
inside the window. -/
theorem c4_cex_rate_limited_spoof :
    sendMessageStep
      ⟨[("ab", [⟨"alice", "c1", 0⟩])], [("c1", ⟨"ab", "alice"⟩)],
       [("c1", [0, 0, 0, 0, 0, 0, 0, 0, 0, 0])], [("ab", ["c1"])]⟩
      "c1" "ab" "bobby" "hi" 100 =
    (⟨[("ab", [⟨"alice", "c1", 0⟩])], [("c1", ⟨"ab", "alice"⟩)],
      [("c1", [0, 0, 0, 0, 0, 0, 0, 0, 0, 0])], [("ab", ["c1"])]⟩,
     [("c1", ServerEvent.errorEvt "Too many messages. Please slow down.")]) := by
  decide

/-- Claim C4 (amended): a send_message that passes the rate-limiter
gate and shape validation but whose (room, author) does not equal the
current SessionBinding — wrong room, wrong author, or no binding — is
answered with exactly one Unauthorized error to the sender, and no
receive_message is broadcast to anyone. -/
theorem c4_unauthorized_no_broadcast (s : ServerState)
    (socketId room author message : String) (now : Nat)
    (hrl : (checkRateLimit socketId now s.messageLimiter).1 = true)
    (hvr : validateRoom room = true) (hvu : validateUsername author = true)
    (hvm : validateMessage message = true)
    (hmis : ∀ b : Binding, alookup socketId s.userSockets = some b →
      ¬(b.room = room ∧ b.username = author)) :
    (sendMessageStep s socketId room author message now).2 =
      [(socketId, ServerEvent.errorEvt "Unauthorized message")] := by
  have hne : ¬((checkRateLimit socketId now s.messageLimiter).1 = false) := by
    rw [hrl]
    simp
  have hnr : ¬(validateRoom room = false) := by rw [hvr]; simp
  have hnu : ¬(validateUsername author = false) := by rw [hvu]; simp
  have hnm : ¬(validateMessage message = false) := by rw [hvm]; simp
  simp only [sendMessageStep]
  rw [if_neg hne, if_neg hnr, if_neg hnu, if_neg hnm]
  cases hb : alookup socketId s.userSockets with
  | none => rfl
  | some b =>
    have hcond : (b.room != room || b.username != author) = true := by
      have hn := hmis b hb
      by_cases hbr : b.room = room
      · have hbu : b.username ≠ author := fun hh => hn ⟨hbr, hh⟩
        simp [hbu]
      · simp [hbr]
    simp [hcond]

/-- Witness for the amended claim C4: a bound connection spoofing the
author "bobby" receives only the Unauthorized error. -/
theorem c4_unauthorized_witness :
    (sendMessageStep
      ⟨[("ab", [⟨"alice", "c1", 0⟩])], [("c1", ⟨"ab", "alice"⟩)], [],
       [("ab", ["c1"])]⟩
      "c1" "ab" "bobby" "hi" 100).2 =
      [("c1", ServerEvent.errorEvt "Unauthorized message")] :=
  c4_unauthorized_no_broadcast
    ⟨[("ab", [⟨"alice", "c1", 0⟩])], [("c1", ⟨"ab", "alice"⟩)], [],
     [("ab", ["c1"])]⟩
    "c1" "ab" "bobby" "hi" 100 (by decide) (by decide) (by decide) (by decide)
    (fun b hb => by
      injection hb with hb
      subst hb
      decide)

/-- Claim C8 is false as stated: the typing handler compares only the
ROOM of the binding with the payload, never the username, so a
connection bound as "alice" relays a typing event under the spoofed
username "zelda" to the other member instead of ignoring it. -/
theorem c8_cex_spoofed_typing :
    typingStep
      ⟨[("ab", [⟨"alice", "c1", 0⟩, ⟨"bobby", "c2", 0⟩])],
       [("c1", ⟨"ab", "alice"⟩), ("c2", ⟨"ab", "bobby"⟩)], [],
       [("ab", ["c1", "c2"])]⟩
      "c1" "ab" "zelda" true =
    (⟨[("ab", [⟨"alice", "c1", 0⟩, ⟨"bobby", "c2", 0⟩])],
      [("c1", ⟨"ab", "alice"⟩), ("c2", ⟨"ab", "bobby"⟩)], [],
      [("ab", ["c1", "c2"])]⟩,
     [("c2", ServerEvent.userTyping "zelda" true)]) := by
  decide

/-- Claim C8 (amended): a typing event is relayed exactly when the
payload room and username pass validation and the ROOM of the binding
equals the payload room (the username is never compared against the
binding); otherwise it is silently ignored with no event at all; when
relayed, the payload goes to every io-room member except the sender and
never to the sender; the state is never mutated. -/
theorem c8_typing_relay (s : ServerState) (socketId room username : String)
    (isTyping : Bool) :
    (typingStep s socketId room username isTyping).1 = s ∧
    (∀ p ∈ (typingStep s socketId room username isTyping).2, p.1 ≠ socketId) ∧
    ((validateRoom room = true ∧ validateUsername username = true ∧
        (∃ b : Binding, alookup socketId s.userSockets = some b ∧ b.room = room)) →
      (typingStep s socketId room username isTyping).2 =
        ((ioMembers room s.ioRooms).filter (fun t => t != socketId)).map
          (fun t => (t, ServerEvent.userTyping username isTyping))) ∧
    ((validateRoom room = false ∨ validateUsername username = false ∨
        (∀ b : Binding, alookup socketId s.userSockets = some b → b.room ≠ room)) →
      (typingStep s socketId room username isTyping).2 = []) := by
  refine ⟨typing_state s socketId room username isTyping, ?_, ?_, ?_⟩
  · intro p hp
    revert hp
    simp only [typingStep]
    split
    · intro hp
      simp at hp
    · split
      · intro hp
        simp at hp
      · split
        · intro hp
          simp at hp
        · intro hp
          obtain ⟨t, ht, hpt⟩ := List.mem_map.mp hp
          rw [← hpt]
          exact bne_iff_ne.mp (List.mem_filter.mp ht).2
  · rintro ⟨hvr, hvu, b, hb, hbr⟩
    have hcond : ¬(validateRoom room = false || validateUsername username = false) := by
      simp [hvr, hvu]
    simp only [typingStep]
    rw [if_neg hcond, hb]
    have hbne : (b.room != room) = false := by simp [hbr]
    simp [hbne]
  · intro hrej
    simp only [typingStep]
    by_cases hcond : (validateRoom room = false || validateUsername username = false)
    · rw [if_pos hcond]
    · rw [if_neg hcond]
      have hpair : ¬(validateRoom room = false) ∧ ¬(validateUsername username = false) := by
        constructor <;> intro h <;> exact hcond (by simp [h])
      have hvr : validateRoom room = true := by
        cases h : validateRoom room
        · exact absurd h hpair.1
        · rfl
      have hvu : validateUsername username = true := by
        cases h : validateUsername username
        · exact absurd h hpair.2
        · rfl
      have hmis : ∀ b : Binding, alookup socketId s.userSockets = some b →
          b.room ≠ room := by
        rcases hrej with h | h | h
        · rw [h] at hvr
          simp at hvr
        · rw [h] at hvu
          simp at hvu
        · exact h
      cases hb2 : alookup socketId s.userSockets with
      | none => rfl
      | some b =>
        have hbt : (b.room != room) = true := bne_iff_ne.mpr (hmis b hb2)
        simp [hbt]

/-- Witness for the amended claim C8: a bound connection typing in its
own room relays to exactly the other io-room members. -/
theorem c8_typing_relay_witness :
    (typingStep
      ⟨[("ab", [⟨"alice", "c1", 0⟩, ⟨"bobby", "c2", 0⟩])],
       [("c1", ⟨"ab", "alice"⟩), ("c2", ⟨"ab", "bobby"⟩)], [],
       [("ab", ["c1", "c2"])]⟩
      "c1" "ab" "alice" true).2 =
      ((ioMembers "ab"
          (⟨[("ab", [⟨"alice", "c1", 0⟩, ⟨"bobby", "c2", 0⟩])],
            [("c1", ⟨"ab", "alice"⟩), ("c2", ⟨"ab", "bobby"⟩)], [],
            [("ab", ["c1", "c2"])]⟩ : ServerState).ioRooms).filter
          (fun t => t != "c1")).map
        (fun t => (t, ServerEvent.userTyping "alice" true)) :=
  (c8_typing_relay
    ⟨[("ab", [⟨"alice", "c1", 0⟩, ⟨"bobby", "c2", 0⟩])],
     [("c1", ⟨"ab", "alice"⟩), ("c2", ⟨"ab", "bobby"⟩)], [],
     [("ab", ["c1", "c2"])]⟩
    "c1" "ab" "alice" true).2.2.1
    ⟨by decide, by decide, ⟨"ab", "alice"⟩, by decide, rfl⟩

theorem mem_ioJoin_self (socketId room : String) (m : List (String × List String)) :
    socketId ∈ ioMembers room (ioJoin socketId room m) := by
  unfold ioJoin ioMembers
  cases halo : alookup room m with
  | none =>
    rw [alookup_aset_self]
    simp
  | some l =>
    show socketId ∈ (alookup room
      (if socketId ∈ l then m else aset room (l ++ [socketId]) m)).getD []
    by_cases hmem : socketId ∈ l
    · rw [if_pos hmem, halo]
      exact hmem
    · rw [if_neg hmem, alookup_aset_self]
      simp

/-- Claim C3 is false as stated: the very first joiner of a fresh room
receives a room_users snapshot that already contains itself, not the
empty list — the snapshot is taken after addUserToRoom runs. -/
theorem c3_cex_first_joiner_snapshot :
    (joinRoomStep initState "c1" "lobby" "alice" 5).2 =
      [("c1", ServerEvent.roomUsersEvt ["alice"]),
       ("c1", ServerEvent.userListUpdate ["alice"])] := by
  decide

/-- Claim C3 (amended): on every successful join_room, the joining
connection is sent first a room_users snapshot of the member list AFTER
it joined — the previous members plus itself, so the first joiner sees a
one-element list naming itself; then every socket in the io room, the
joiner included, is sent a user_list_update carrying that same post-join
list; and every io-room member EXCEPT the joiner is sent the system
message "username joined the room", which is never sent to the joiner. -/
theorem c3_join_emissions (s : ServerState) (socketId room username : String)
    (now : Nat)
    (hvu : validateUsername username = true) (hvr : validateRoom room = true)
    (hex : userExistsInRoom s.rooms room username = false)
    (hnm : ∀ m ∈ (alookup room s.rooms).getD ([] : List Member),
      m.socketId ≠ socketId) :
    (getRoomUsers (joinRoomStep s socketId room username now).1.rooms room).map
        Member.username =
      ((getRoomUsers s.rooms room).map Member.username) ++ [jsTrim username] ∧
    (joinRoomStep s socketId room username now).2.head? =
      some (socketId, ServerEvent.roomUsersEvt
        ((getRoomUsers (joinRoomStep s socketId room username now).1.rooms room).map
          Member.username)) ∧
    socketId ∈ ioMembers room (ioJoin socketId room s.ioRooms) ∧
    (∀ t ∈ ioMembers room (ioJoin socketId room s.ioRooms),
      (t, ServerEvent.userListUpdate
        ((getRoomUsers (joinRoomStep s socketId room username now).1.rooms room).map
          Member.username)) ∈ (joinRoomStep s socketId room username now).2) ∧
    (∀ t ∈ ioMembers room (ioJoin socketId room s.ioRooms), t ≠ socketId →
      (t, ServerEvent.systemMessage (username ++ " joined the room") now) ∈
        (joinRoomStep s socketId room username now).2) ∧
    (∀ p ∈ (joinRoomStep s socketId room username now).2,
      p.2 = ServerEvent.systemMessage (username ++ " joined the room") now →
        p.1 ≠ socketId) := by
  have hnu : ¬(validateUsername username = false) := by rw [hvu]; simp
  have hnr : ¬(validateRoom room = false) := by rw [hvr]; simp
  have hnex : ¬(userExistsInRoom s.rooms room username = true) := by rw [hex]; simp
  have hlook := addUser_rooms_lookup room username socketId now s.rooms s.userSockets hnm
  simp only [joinRoomStep]
  rw [if_neg hnu, if_neg hnr, if_neg hnex]
  dsimp only
  refine ⟨?_, rfl, mem_ioJoin_self socketId room s.ioRooms, ?_, ?_, ?_⟩
  · simp only [getRoomUsers]
    rw [hlook room, if_pos rfl]
    simp
  · intro t ht
    exact List.mem_cons_of_mem _ (List.mem_append_left _
      (List.mem_map_of_mem _ ht))
  · intro t ht htne
    exact List.mem_cons_of_mem _ (List.mem_append_right _
      (List.mem_map_of_mem _ (List.mem_filter.mpr ⟨ht, bne_iff_ne.mpr htne⟩)))
  · intro p hp hpe
    rcases List.mem_cons.mp hp with rfl | hp2
    · cases hpe
    · rcases List.mem_append.mp hp2 with hmid | htail
      · obtain ⟨t, ht, hpt⟩ := List.mem_map.mp hmid
        rw [← hpt] at hpe
        cases hpe
      · obtain ⟨t, ht, hpt⟩ := List.mem_map.mp htail
        rw [← hpt]
        exact bne_iff_ne.mp (List.mem_filter.mp ht).2

/-- Witness for the amended claim C3: the first joiner of a fresh room
is handed the one-element post-join member list naming itself. -/
theorem c3_join_emissions_witness :
    (getRoomUsers (joinRoomStep initState "c1" "lobby" "alice" 5).1.rooms "lobby").map
        Member.username =
      ((getRoomUsers initState.rooms "lobby").map Member.username) ++ [jsTrim "alice"] :=
  (c3_join_emissions initState "c1" "lobby" "alice" 5 (by decide) (by decide)
    (by decide) (by decide)).1

theorem removeUser_last_rooms (socketId : String) (s : ServerState) (b : Binding)
    (users : List Member)
    (hb : alookup socketId s.userSockets = some b)
    (hr : alookup b.room s.rooms = some users)
    (hlast : users.filter (fun u => u.socketId != socketId) = []) :
    (removeUserFromRoom socketId s).1.rooms = adel b.room s.rooms := by
  unfold removeUserFromRoom
  rw [hb]
  dsimp only
  rw [hr]
  dsimp only
  rw [hlast]
  rfl

theorem ioMembers_ioLeave_self (socketId room : String)
    (m : List (String × List String)) (hnd : (keys m).Nodup)
    (h : ((alookup room m).getD ([] : List String)).filter
      (fun t => t != socketId) = []) :
    ioMembers room (ioLeave socketId room m) = [] := by
  unfold ioLeave ioMembers
  cases halo : alookup room m with
  | none =>
    show (alookup room m).getD ([] : List String) = []
    rw [halo]
    rfl
  | some l =>
    rw [halo] at h
    simp only [Option.getD_some] at h
    show (alookup room (if (l.filter (fun t => t != socketId)).isEmpty
        then adel room m
        else aset room (l.filter (fun t => t != socketId)) m)).getD
      ([] : List String) = []
    rw [h]
    simp only [List.isEmpty_nil, ite_true, if_true]
    rw [alookup_adel_self _ _ hnd]
    rfl

theorem map_fst_listRooms (s : ServerState) :
    (listRooms s).map Prod.fst = keys s.rooms := by
  unfold listRooms keys
  rw [List.map_map]
  rfl

theorem leave_unfold (s : ServerState) (socketId : String) (now : Nat) (b : Binding)
    (hb : alookup socketId s.userSockets = some b) :
    leaveRoomStep s socketId now =
      ((removeUserFromRoom socketId
          { s with ioRooms := ioLeave socketId b.room s.ioRooms }).1,
       (ioMembers b.room (removeUserFromRoom socketId
           { s with ioRooms := ioLeave socketId b.room s.ioRooms }).1.ioRooms).map
         (fun t => (t, ServerEvent.systemMessage (b.username ++ " left the room") now)) ++
       (ioMembers b.room (removeUserFromRoom socketId
           { s with ioRooms := ioLeave socketId b.room s.ioRooms }).1.ioRooms).map
         (fun t => (t, ServerEvent.userListUpdate
           ((getRoomUsers (removeUserFromRoom socketId
               { s with ioRooms := ioLeave socketId b.room s.ioRooms }).1.rooms
             b.room).map Member.username)))) := by
  simp only [leaveRoomStep]
  rw [hb]

theorem disconnect_unfold (s : ServerState) (socketId : String) (now : Nat)
    (b : Binding)
    (hb2 : (removeUserFromRoom socketId
        { s with ioRooms := ioLeaveAll socketId s.ioRooms }).2 = some b) :
    disconnectStep s socketId now =
      ((removeUserFromRoom socketId
          { s with ioRooms := ioLeaveAll socketId s.ioRooms }).1,
       (ioMembers b.room (removeUserFromRoom socketId
           { s with ioRooms := ioLeaveAll socketId s.ioRooms }).1.ioRooms).map
         (fun t => (t, ServerEvent.systemMessage (b.username ++ " left the room") now)) ++
       (if (getRoomUsers (removeUserFromRoom socketId
             { s with ioRooms := ioLeaveAll socketId s.ioRooms }).1.rooms
           b.room).isEmpty then []
        else (ioMembers b.room (removeUserFromRoom socketId
            { s with ioRooms := ioLeaveAll socketId s.ioRooms }).1.ioRooms).map
          (fun t => (t, ServerEvent.userListUpdate
            ((getRoomUsers (removeUserFromRoom socketId
                { s with ioRooms := ioLeaveAll socketId s.ioRooms }).1.rooms
              b.room).map Member.username))))) := by
  simp only [disconnectStep]
  rw [hb2]

/-- Claim C7: when the connection being removed is the last member of
its room — via leave_room or via disconnect — the room entry is deleted
from the registry, it no longer shows in the room listing, and no
user_list_update is broadcast for the now-empty room (leave_room emits
nothing at all; disconnect emits at most the system leave message to the
already-empty recipient set). -/
theorem c7_last_member_room_removed (s : ServerState)
    (socketId room username : String) (users : List Member) (now : Nat)
    (hb : alookup socketId s.userSockets = some ⟨room, username⟩)
    (hr : alookup room s.rooms = some users)
    (hlast : users.filter (fun u => u.socketId != socketId) = [])
    (hnd : (keys s.rooms).Nodup)
    (hndio : (keys s.ioRooms).Nodup)
    (hio : ((alookup room s.ioRooms).getD ([] : List String)).filter
      (fun t => t != socketId) = []) :
    (alookup room (leaveRoomStep s socketId now).1.rooms = none ∧
      room ∉ (listRooms (leaveRoomStep s socketId now).1).map Prod.fst ∧
      (leaveRoomStep s socketId now).2 = []) ∧
    (alookup room (disconnectStep s socketId now).1.rooms = none ∧
      room ∉ (listRooms (disconnectStep s socketId now).1).map Prod.fst ∧
      ∀ p ∈ (disconnectStep s socketId now).2, ∀ l : List String,
        p.2 ≠ ServerEvent.userListUpdate l) := by
  have hleq := leave_unfold s socketId now ⟨room, username⟩ hb
  have hroomsL : (removeUserFromRoom socketId
      { s with ioRooms := ioLeave socketId room s.ioRooms }).1.rooms =
      adel room s.rooms :=
    removeUser_last_rooms socketId
      { s with ioRooms := ioLeave socketId room s.ioRooms }
      ⟨room, username⟩ users hb hr hlast
  have hioL : (removeUserFromRoom socketId
      { s with ioRooms := ioLeave socketId room s.ioRooms }).1.ioRooms =
      ioLeave socketId room s.ioRooms :=
    (removeUser_proj socketId
      { s with ioRooms := ioLeave socketId room s.ioRooms }
      ⟨room, username⟩ hb).2.2.1
  have hrecL : ioMembers room (ioLeave socketId room s.ioRooms) = [] :=
    ioMembers_ioLeave_self socketId room s.ioRooms hndio hio
  constructor
  · refine ⟨?_, ?_, ?_⟩
    · rw [hleq]
      dsimp only
      rw [hroomsL]
      exact alookup_adel_self _ _ hnd
    · rw [hleq]
      dsimp only
      rw [map_fst_listRooms, hroomsL]
      exact (alookup_eq_none_iff room _).mp (alookup_adel_self room s.rooms hnd)
    · rw [hleq]
      dsimp only
      rw [hioL, hrecL]
      rfl
  · have hprojD := removeUser_proj socketId
      { s with ioRooms := ioLeaveAll socketId s.ioRooms } ⟨room, username⟩ hb
    have hdeq := disconnect_unfold s socketId now ⟨room, username⟩ hprojD.2.2.2
    have hroomsD : (removeUserFromRoom socketId
        { s with ioRooms := ioLeaveAll socketId s.ioRooms }).1.rooms =
        adel room s.rooms :=
      removeUser_last_rooms socketId
        { s with ioRooms := ioLeaveAll socketId s.ioRooms }
        ⟨room, username⟩ users hb hr hlast
    refine ⟨?_, ?_, ?_⟩
    · rw [hdeq]
      dsimp only
      rw [hroomsD]
      exact alookup_adel_self _ _ hnd
    · rw [hdeq]
      dsimp only
      rw [map_fst_listRooms, hroomsD]
      exact (alookup_eq_none_iff room _).mp (alookup_adel_self room s.rooms hnd)
    · rw [hdeq]
      dsimp only
      have hempty : getRoomUsers (removeUserFromRoom socketId
          { s with ioRooms := ioLeaveAll socketId s.ioRooms }).1.rooms room = [] := by
        simp only [getRoomUsers]
        rw [hroomsD, alookup_adel_self _ _ hnd]
        rfl
      intro p hp l
      rw [hempty] at hp
      simp only [List.isEmpty_nil, ite_true, if_true, List.append_nil] at hp
      obtain ⟨t, ht, hpt⟩ := List.mem_map.mp hp
      rw [← hpt]
      intro hcon
      cases hcon

/-- Witness for claim C7: the sole member of room "ab" leaves (or
disconnects); the room disappears from the registry and the listing and
no user_list_update is emitted. -/
theorem c7_last_member_witness :
    (alookup "ab" (leaveRoomStep
        ⟨[("ab", [⟨"alice", "c1", 0⟩])], [("c1", ⟨"ab", "alice"⟩)], [],
         [("ab", ["c1"])]⟩ "c1" 3).1.rooms = none ∧
      "ab" ∉ (listRooms (leaveRoomStep
        ⟨[("ab", [⟨"alice", "c1", 0⟩])], [("c1", ⟨"ab", "alice"⟩)], [],
         [("ab", ["c1"])]⟩ "c1" 3).1).map Prod.fst ∧
      (leaveRoomStep
        ⟨[("ab", [⟨"alice", "c1", 0⟩])], [("c1", ⟨"ab", "alice"⟩)], [],
         [("ab", ["c1"])]⟩ "c1" 3).2 = []) ∧
    (alookup "ab" (disconnectStep
        ⟨[("ab", [⟨"alice", "c1", 0⟩])], [("c1", ⟨"ab", "alice"⟩)], [],
         [("ab", ["c1"])]⟩ "c1" 3).1.rooms = none ∧
      "ab" ∉ (listRooms (disconnectStep
        ⟨[("ab", [⟨"alice", "c1", 0⟩])], [("c1", ⟨"ab", "alice"⟩)], [],
         [("ab", ["c1"])]⟩ "c1" 3).1).map Prod.fst ∧
      ∀ p ∈ (disconnectStep
        ⟨[("ab", [⟨"alice", "c1", 0⟩])], [("c1", ⟨"ab", "alice"⟩)], [],
         [("ab", ["c1"])]⟩ "c1" 3).2, ∀ l : List String,
        p.2 ≠ ServerEvent.userListUpdate l) :=
  c7_last_member_room_removed
    ⟨[("ab", [⟨"alice", "c1", 0⟩])], [("c1", ⟨"ab", "alice"⟩)], [],
     [("ab", ["c1"])]⟩
    "c1" "ab" "alice" [⟨"alice", "c1", 0⟩] 3
    (by decide) (by decide) (by decide) (by decide) (by decide) (by decide)

end Chat
